import Mathlib

/-!
Verification of the landmark-detection app's decision logic.

This file gives a shallow embedding, in Lean 4, of the pure decision logic
of the repository:

* `mapping.py` — the confidence-bucket policy (`_get_marker_icon`,
  `_get_marker_color`, `add_heatmap`), the confidence-string parsing in
  `add_marker`, and the retry control flow of `get_location_details`;
* `firestore.py` — the review store (`_create_review`,
  `_get_reviews_for_landmark`, `get_review_for_landmark`,
  `get_all_reviews`);
* `gui.py` — the per-upload page flow of `Landmarker.main` (most-matched
  tracking and which coordinates seed the downstream calls).

Python floats are modelled as exact rationals (`ℚ`); the scores and
coordinates handled by the app are small decimal values for which Python's
`float` repr/parse round-trips exactly, so the rational model is faithful
for every property stated here.  External services (the vision API, the
geocoder, the fuzzy string matcher `fuzz.ratio`, the Firestore stream) are
modelled as explicit parameters.
-/

namespace Landmarker

/-! ## Confidence-bucket policy (`mapping.py`) -/

/-- Marker glyphs used by `FoliumMap.add_marker` (mapping.py lines 234-256):
the `DivIcon` pin, star and x SVGs. -/
inductive Icon where
  | pin
  | star
  | x
deriving DecidableEq

/-- `FoliumMap._get_marker_icon` (mapping.py lines 270-289). -/
def getMarkerIcon (confidence_score : ℚ) : Icon :=
  if confidence_score < 35/100 then Icon.x
  else if confidence_score < 65/100 then Icon.pin
  else Icon.star

/-- `FoliumMap._get_marker_color` (mapping.py lines 291-307). -/
def getMarkerColor (confidence_score : ℚ) : String :=
  if confidence_score < 35/100 then "red"
  else if confidence_score < 65/100 then "yellow"
  else "green"

/-- Color of the accuracy circle in `FoliumMap.add_heatmap`
(mapping.py line 331): `'red' if score < 0.35 else 'yellow' if score < 0.65
else 'green'`. -/
def addHeatmapColor (score : ℚ) : String :=
  if score < 35/100 then "red"
  else if score < 65/100 then "yellow"
  else "green"

/-! ## Review store (`firestore.py`) -/

/-- One document of the `user_reviews` collection, as written by
`Firestore._create_review` (firestore.py lines 137-143).  The `Coordinates`
field is stored as the text `"lon/lat"`; it is modelled as the pair of the
two rationals that `split("/")` recovers (`.1` is the piece before the
slash, the longitude; `.2` the piece after it, the latitude; Python's
float-to-string round-trip is exact). -/
structure ReviewData where
  Username : String
  Landmark : String
  Coordinates : ℚ × ℚ
  Score10 : ℤ
  Review : String
deriving DecidableEq

/-- The per-document match test of `Firestore._get_reviews_for_landmark`
(firestore.py lines 209-219).  Python's `and` binds tighter than `or`, so
the condition is (coordinate box) OR (fuzzy name match).  The external
`fuzz.ratio` is a parameter `fuzz` returning a similarity on the 0-100
scale. -/
def reviewMatches (fuzz : String → String → ℕ) (review_data : ReviewData)
    (long lat accuracy_range : ℚ) (landmark_name : String) : Bool :=
  (decide (review_data.Coordinates.1 ≤ long + accuracy_range) &&
   decide (review_data.Coordinates.1 ≥ long - accuracy_range) &&
   decide (review_data.Coordinates.2 ≤ lat + accuracy_range) &&
   decide (review_data.Coordinates.2 ≥ lat - accuracy_range))
  || decide (fuzz review_data.Landmark landmark_name ≥ 80)

/-- `Firestore._get_reviews_for_landmark` (firestore.py lines 189-235): scan
the stored documents, keep the matching ones, and return them if any
matched; `if reviews: return reviews` / `return None` becomes the
`Option`. -/
def getReviewsForLandmark (fuzz : String → String → ℕ)
    (store : List ReviewData) (long lat accuracy_range : ℚ)
    (landmark_name : String) : Option (List ReviewData) :=
  if store.filter (fun rd => reviewMatches fuzz rd long lat accuracy_range landmark_name) = [] then
    none
  else
    some (store.filter (fun rd => reviewMatches fuzz rd long lat accuracy_range landmark_name))

/-- `Firestore._create_review` (firestore.py lines 119-155): a new document
with the five fields `Username`, `Landmark`, `Coordinates`, `Score10`,
`Review` is added to the collection. -/
def createNewReview (store : List ReviewData) (review landmark : String)
    (coordinates : ℚ × ℚ) (score : ℤ) (username : String) : List ReviewData :=
  store ++ [{ Username := username, Landmark := landmark,
              Coordinates := coordinates, Score10 := score, Review := review }]

/-- `Firestore.get_review_for_landmark` (firestore.py lines 157-187): if the
Firestore read raises, the exception is caught (error code 105/106) and
`None` is returned instead of aborting; otherwise the scan above runs on the
streamed documents. -/
def getReviewForLandmark (fuzz : String → String → ℕ)
    (readResult : Except Unit (List ReviewData)) (long lat accuracy_range : ℚ)
    (landmark_name : String) : Option (List ReviewData) :=
  match readResult with
  | Except.error _ => none
  | Except.ok store => getReviewsForLandmark fuzz store long lat accuracy_range landmark_name

/-- `Firestore.get_all_reviews` (firestore.py lines 36-58): on a read
failure the exception is caught (error code 101/102) and `None` is
returned; on success the list of all documents. -/
def getAllReviews (readResult : Except Unit (List ReviewData)) :
    Option (List ReviewData) :=
  match readResult with
  | Except.error _ => none
  | Except.ok store => some store

/-- Python truthiness of the value the callers in `gui.py` test with
`if reviews:`: `None` and the empty list are both falsy. -/
def pyTruthy : Option (List ReviewData) → Bool
  | none => false
  | some l => !l.isEmpty

/-! ## Theorems: confidence bucketing -/

/-- C1: for every confidence score, exactly one bucket is assigned:
glyph x with color red iff `s < 0.35`, glyph pin with color yellow iff
`0.35 ≤ s < 0.65`, glyph star with color green iff `0.65 ≤ s`; the
boundaries are inclusive on the upper side (`0.35` is a pin, `0.65` a
star), and `0.20 → x/red`, `0.50 → pin/yellow`, `0.90 → star/green`. -/
theorem confidence_bucket_policy :
    ∀ s : ℚ,
      ((getMarkerIcon s = Icon.x ∧ getMarkerColor s = "red") ↔ s < 35/100) ∧
      ((getMarkerIcon s = Icon.pin ∧ getMarkerColor s = "yellow") ↔
        (35/100 ≤ s ∧ s < 65/100)) ∧
      ((getMarkerIcon s = Icon.star ∧ getMarkerColor s = "green") ↔ 65/100 ≤ s) ∧
      (getMarkerIcon (35/100) = Icon.pin ∧ getMarkerColor (35/100) = "yellow") ∧
      (getMarkerIcon (65/100) = Icon.star ∧ getMarkerColor (65/100) = "green") ∧
      (getMarkerIcon (20/100) = Icon.x ∧ getMarkerColor (20/100) = "red") ∧
      (getMarkerIcon (50/100) = Icon.pin ∧ getMarkerColor (50/100) = "yellow") ∧
      (getMarkerIcon (90/100) = Icon.star ∧ getMarkerColor (90/100) = "green") := by
  intro s
  refine ⟨?_, ?_, ?_,
    by norm_num [getMarkerIcon, getMarkerColor],
    by norm_num [getMarkerIcon, getMarkerColor],
    by norm_num [getMarkerIcon, getMarkerColor],
    by norm_num [getMarkerIcon, getMarkerColor],
    by norm_num [getMarkerIcon, getMarkerColor]⟩
  · rcases lt_or_le s (35/100) with h1 | h1
    · simp [getMarkerIcon, getMarkerColor, h1]
    · rcases lt_or_le s (65/100) with h2 | h2
      · simp [getMarkerIcon, getMarkerColor, not_lt.mpr h1, h2]
      · simp [getMarkerIcon, getMarkerColor, not_lt.mpr h1, not_lt.mpr h2]
  · rcases lt_or_le s (35/100) with h1 | h1
    · simp [getMarkerIcon, getMarkerColor, h1, not_le.mpr h1]
    · rcases lt_or_le s (65/100) with h2 | h2
      · simp [getMarkerIcon, getMarkerColor, not_lt.mpr h1, h1, h2]
      · simp [getMarkerIcon, getMarkerColor, not_lt.mpr h1, not_lt.mpr h2]
  · rcases lt_or_le s (35/100) with h1 | h1
    · simp [getMarkerIcon, getMarkerColor, h1, not_le.mpr (by linarith : s < 65/100)]
    · rcases lt_or_le s (65/100) with h2 | h2
      · simp [getMarkerIcon, getMarkerColor, not_lt.mpr h1, h2, not_le.mpr h2]
      · simp [getMarkerIcon, getMarkerColor, not_lt.mpr h1, not_lt.mpr h2, h2]

/-- C6: the two call sites of the confidence bucketing agree for every
score: the color chosen by `_get_marker_color` for the marker glyph equals
the color of the accuracy circle drawn by `add_heatmap` under it. -/
theorem marker_and_heatmap_colors_agree :
    ∀ s : ℚ, getMarkerColor s = addHeatmapColor s := by
  intro s
  rfl

/-! ## Theorems: review matching -/

/-- C2: a stored review is included in the result of
`_get_reviews_for_landmark` iff its coordinate lies within the
`accuracy_range` box of the query coordinate or its stored name has fuzzy
similarity at least 80 to the query name; in particular a review stored at
`(40.05, 49.03)` matches the query coordinate `(40.0, 49.0)` with radius
`0.1`, and a review stored at `(41.5, 50.0)` whose name is dissimilar
(ratio below 80) does not match. -/
theorem review_match_membership :
    (∀ (fuzz : String → String → ℕ) (store : List ReviewData)
       (rd : ReviewData) (long lat r : ℚ) (name : String),
       rd ∈ store →
       ((∃ l, getReviewsForLandmark fuzz store long lat r name = some l ∧ rd ∈ l) ↔
         ((|rd.Coordinates.1 - long| ≤ r ∧ |rd.Coordinates.2 - lat| ≤ r) ∨
           80 ≤ fuzz rd.Landmark name))) ∧
    (∀ (fuzz : String → String → ℕ) (u n t : String) (sc : ℤ) (qname : String),
       reviewMatches fuzz
         { Username := u, Landmark := n, Coordinates := (801/20, 4903/100),
           Score10 := sc, Review := t } 40 49 (1/10) qname = true) ∧
    (∀ (fuzz : String → String → ℕ) (u n t : String) (sc : ℤ) (qname : String),
       fuzz n qname < 80 →
       reviewMatches fuzz
         { Username := u, Landmark := n, Coordinates := (83/2, 50),
           Score10 := sc, Review := t } 40 49 (1/10) qname = false) := by
  refine ⟨?_, ?_, ?_⟩
  · intro fuzz store rd long lat r name hmem
    have hmatch : reviewMatches fuzz rd long lat r name = true ↔
        ((|rd.Coordinates.1 - long| ≤ r ∧ |rd.Coordinates.2 - lat| ≤ r) ∨
          80 ≤ fuzz rd.Landmark name) := by
      simp only [reviewMatches, Bool.or_eq_true, Bool.and_eq_true,
        decide_eq_true_eq, ge_iff_le, abs_sub_le_iff]
      constructor
      · rintro (⟨⟨⟨h1, h2⟩, h3⟩, h4⟩ | h5)
        · exact Or.inl ⟨⟨by linarith, by linarith⟩, by linarith, by linarith⟩
        · exact Or.inr h5
      · rintro (⟨⟨h1, h2⟩, h3, h4⟩ | h5)
        · exact Or.inl ⟨⟨⟨by linarith, by linarith⟩, by linarith⟩, by linarith⟩
        · exact Or.inr h5
    rw [← hmatch]
    unfold getReviewsForLandmark
    by_cases hnil :
        store.filter (fun x => reviewMatches fuzz x long lat r name) = []
    · rw [if_pos hnil]
      simp only [false_and, exists_false, false_iff, reduceCtorEq]
      intro hm
      have : rd ∈ store.filter (fun x => reviewMatches fuzz x long lat r name) :=
        List.mem_filter.mpr ⟨hmem, hm⟩
      rw [hnil] at this
      exact absurd this (List.not_mem_nil rd)
    · rw [if_neg hnil]
      constructor
      · rintro ⟨l, hl, hrd⟩
        have hleq : l = store.filter (fun x => reviewMatches fuzz x long lat r name) :=
          (Option.some_inj.mp hl).symm
        rw [hleq] at hrd
        exact (List.mem_filter.mp hrd).2
      · intro hm
        exact ⟨_, rfl, List.mem_filter.mpr ⟨hmem, hm⟩⟩
  · intro fuzz u n t sc qname
    simp only [reviewMatches, Bool.or_eq_true, Bool.and_eq_true, decide_eq_true_eq,
      ge_iff_le]
    left
    norm_num
  · intro fuzz u n t sc qname hfuzz
    have h1 : ¬ ((83:ℚ)/2 ≤ 40 + 1/10) := by norm_num
    have h2 : ¬ (fuzz n qname ≥ 80) := not_le.mpr hfuzz
    simp [reviewMatches, decide_eq_false h1, decide_eq_false h2]
    intro h
    norm_num at h

/-- Witness for C2: at concrete inputs, the dissimilar far-away review is
not returned, and the membership characterisation holds for it. -/
theorem review_match_membership_witness :
    (∃ l, getReviewsForLandmark (fun _ _ => 0)
        [{ Username := "u", Landmark := "Icheri Sheher", Coordinates := (83/2, 50),
           Score10 := 5, Review := "t" }] 40 49 (1/10) "Maiden Tower" = some l ∧
        ({ Username := "u", Landmark := "Icheri Sheher", Coordinates := (83/2, 50),
           Score10 := 5, Review := "t" } : ReviewData) ∈ l) ↔
      ((|(83/2 : ℚ) - 40| ≤ 1/10 ∧ |(50 : ℚ) - 49| ≤ 1/10) ∨
        80 ≤ (fun (_ _ : String) => 0) "Icheri Sheher" "Maiden Tower") :=
  review_match_membership.1 (fun _ _ => 0) _ _ 40 49 (1/10) "Maiden Tower"
    (List.mem_singleton.mpr rfl)

/-- C5: round-trip — a review written via `_create_review` and then fetched
via `_get_reviews_for_landmark` with the same coordinate and the same
landmark name (and a nonnegative accuracy range, the caller passes `0.1`)
appears in the result list with all five fields unmodified. -/
theorem review_round_trip :
    ∀ (fuzz : String → String → ℕ) (store : List ReviewData)
      (review landmark username : String) (lon lat : ℚ) (score : ℤ) (r : ℚ),
      0 ≤ r →
      ∃ l, getReviewsForLandmark fuzz
             (createNewReview store review landmark (lon, lat) score username)
             lon lat r landmark = some l ∧
           ({ Username := username, Landmark := landmark, Coordinates := (lon, lat),
              Score10 := score, Review := review } : ReviewData) ∈ l := by
  intro fuzz store review landmark username lon lat score r hr
  have hmatch : reviewMatches fuzz
      { Username := username, Landmark := landmark, Coordinates := (lon, lat),
        Score10 := score, Review := review } lon lat r landmark = true := by
    simp only [reviewMatches, Bool.or_eq_true, Bool.and_eq_true, decide_eq_true_eq,
      ge_iff_le]
    left
    exact ⟨⟨⟨by linarith, by linarith⟩, by linarith⟩, by linarith⟩
  have hmem : ({ Username := username, Landmark := landmark,
                 Coordinates := (lon, lat),
                 Score10 := score, Review := review } : ReviewData) ∈
      (createNewReview store review landmark (lon, lat) score username).filter
        (fun rd => reviewMatches fuzz rd lon lat r landmark) := by
    refine List.mem_filter.mpr ⟨?_, hmatch⟩
    unfold createNewReview
    simp
  refine ⟨_, ?_, hmem⟩
  unfold getReviewsForLandmark
  rw [if_neg (List.ne_nil_of_mem hmem)]

/-- Witness for C5: the concrete round-trip with radius `0.1`. -/
theorem review_round_trip_witness :
    0 ≤ (1/10 : ℚ) ∧
    ∃ l, getReviewsForLandmark (fun _ _ => 100)
           (createNewReview [] "Great tower" "Maiden Tower" (997/20, 8083/200) 9 "aysel")
           (997/20) (8083/200) (1/10) "Maiden Tower" = some l ∧
         ({ Username := "aysel", Landmark := "Maiden Tower",
            Coordinates := (997/20, 8083/200), Score10 := 9,
            Review := "Great tower" } : ReviewData) ∈ l :=
  ⟨by norm_num,
   review_round_trip (fun _ _ => 100) [] "Great tower" "Maiden Tower" "aysel"
     (997/20) (8083/200) 9 (1/10) (by norm_num)⟩

/-- C9: review matching is reflexive — a stored review whose coordinate
equals the query coordinate and whose landmark name equals the query name is
always included in the result, for any accuracy range `≥ 0`. -/
theorem review_match_reflexive :
    ∀ (fuzz : String → String → ℕ) (store : List ReviewData) (rd : ReviewData)
      (lon lat r : ℚ) (name : String),
      rd ∈ store → rd.Coordinates = (lon, lat) → rd.Landmark = name → 0 ≤ r →
      ∃ l, getReviewsForLandmark fuzz store lon lat r name = some l ∧ rd ∈ l := by
  intro fuzz store rd lon lat r name hmem hcoord hname hr
  have hmatch : reviewMatches fuzz rd lon lat r name = true := by
    simp only [reviewMatches, Bool.or_eq_true, Bool.and_eq_true, decide_eq_true_eq,
      ge_iff_le, hcoord]
    left
    exact ⟨⟨⟨by linarith, by linarith⟩, by linarith⟩, by linarith⟩
  have hmemf : rd ∈ store.filter (fun x => reviewMatches fuzz x lon lat r name) :=
    List.mem_filter.mpr ⟨hmem, hmatch⟩
  refine ⟨_, ?_, hmemf⟩
  unfold getReviewsForLandmark
  rw [if_neg (List.ne_nil_of_mem hmemf)]

/-- Witness for C9: a concrete exact-coordinate, exact-name review is
returned. -/
theorem review_match_reflexive_witness :
    ∃ l, getReviewsForLandmark (fun _ _ => 0)
           [{ Username := "rauf", Landmark := "Ateshgah",
              Coordinates := (1004/20, 8051/200), Score10 := 7,
              Review := "fire temple" }]
           (1004/20) (8051/200) (1/10) "Ateshgah" = some l ∧
         ({ Username := "rauf", Landmark := "Ateshgah",
            Coordinates := (1004/20, 8051/200), Score10 := 7,
            Review := "fire temple" } : ReviewData) ∈ l :=
  review_match_reflexive (fun _ _ => 0) _ _ (1004/20) (8051/200) (1/10) "Ateshgah"
    (List.mem_singleton.mpr rfl) rfl rfl (by norm_num)

/-- C7: a persistence failure on read is non-fatal and degrades to the
no-reviews outcome: `get_review_for_landmark` returns `None` when the read
raises, which is the same value it returns when no stored review matches,
and `get_all_reviews` on a failed read is as falsy to the caller's
`if reviews:` test as an empty collection. -/
theorem persistence_read_failure_degrades :
    (∀ (fuzz : String → String → ℕ) (long lat r : ℚ) (name : String),
       getReviewForLandmark fuzz (Except.error ()) long lat r name = none) ∧
    (∀ (fuzz : String → String → ℕ) (store : List ReviewData)
       (long lat r : ℚ) (name : String),
       (∀ rd ∈ store, reviewMatches fuzz rd long lat r name = false) →
       getReviewForLandmark fuzz (Except.ok store) long lat r name = none) ∧
    (pyTruthy (getAllReviews (Except.error ())) = false ∧
     pyTruthy (getAllReviews (Except.ok [])) = false) := by
  refine ⟨fun _ _ _ _ _ => rfl, ?_, rfl, rfl⟩
  intro fuzz store long lat r name hnone
  have hfil : store.filter (fun rd => reviewMatches fuzz rd long lat r name) = [] :=
    List.filter_eq_nil_iff.mpr (by
      intro rd hrd
      simp [hnone rd hrd])
  simp only [getReviewForLandmark, getReviewsForLandmark]
  rw [if_pos hfil]

/-- Witness for C7: a concrete store whose only review neither lies in the
query box nor is fuzzily similar yields `None`, the no-reviews outcome. -/
theorem persistence_read_failure_degrades_witness :
    getReviewForLandmark (fun _ _ => 0)
      (Except.ok [{ Username := "u", Landmark := "Flame Towers",
                    Coordinates := (83/2, 50), Score10 := 5, Review := "t" }])
      40 49 (1/10) "Maiden Tower" = none :=
  persistence_read_failure_degrades.2.1 (fun _ _ => 0) _ 40 49 (1/10) "Maiden Tower"
    (by
      intro rd hrd
      rw [List.mem_singleton] at hrd
      subst hrd
      have h1 : ¬ ((83:ℚ)/2 ≤ 40 + 1/10) := by norm_num
      have h2 : ¬ ((0:ℕ) ≥ 80) := by norm_num
      simp [reviewMatches, decide_eq_false h1, decide_eq_false h2]
      intro h
      norm_num at h)

/-! ## Page flow of `Landmarker.main` (`gui.py`) -/

/-- One recognition candidate (gui.py lines 222-227): `landmark.description`,
`landmark.score`, and the first location's latitude/longitude. -/
structure Candidate where
  description : String
  score : ℚ
  lat : ℚ
  lon : ℚ
deriving DecidableEq

/-- The most-matched tracking state (gui.py lines 215-218):
`landmark_most_matched`, `landmark_most_matched_score`, `lat_most_matched`,
`lon_most_matched`. -/
structure Best where
  name : String
  score : ℚ
  lat : ℚ
  lon : ℚ
deriving DecidableEq

/-- Initial tracking values (gui.py lines 215-218). -/
def initBest : Best := { name := "", score := 0, lat := 0, lon := 0 }

/-- One step of the tracking loop (gui.py lines 230-234): update only on a
strictly greater score. -/
def updateBest (b : Best) (c : Candidate) : Best :=
  if c.score > b.score then
    { name := c.description, score := c.score, lat := c.lat, lon := c.lon }
  else b

/-- The tracking loop over the whole candidate list. -/
def trackBest (landmarks : List Candidate) : Best :=
  landmarks.foldl updateBest initBest

/-- The max-by-confidence element, first-seen on ties (the element the spec
says is tracked); stated independently of the loop above. -/
def firstMaxCandidate : List Candidate → Option Candidate
  | [] => none
  | c :: rest =>
      match firstMaxCandidate rest with
      | none => some c
      | some d => if d.score > c.score then some d else some c

/-- Observable effects of one run of `Landmarker.main` past the upload
(gui.py lines 215-527), for a given geocoder and an optional validated
review-form submission:

* `best` — the most-matched tracking state after the loop;
* `geolocationCalls` — the `(lat, lon)` arguments of `fm.get_city_country`
  (line 316; the for-loop leaks its last iteration's `lat`/`lon`);
* `summaryCalls` — landmark-summary LLM calls (lines 319-358, made when the
  geocoded city and country are nonempty and differ from the constant
  `PREVIOUS_CITY_COUNTRY`);
* `reviewQueryCalls` — the `(long, lat, accuracy_range, landmark_name)`
  arguments of `get_review_for_landmark` (line 426; lines 372-373 reassign
  `lat`/`lon` to the most-matched values first);
* `reviewWriteCalls` — the `(review, landmark, coordinates, score, username)`
  arguments of `create_new_review` (lines 450-456);
* `mapsLink` — the `(lat, lon)` in the Google-Maps deep link (line 378);
* `noLandmarksPath` — whether the "no landmarks detected" page was rendered
  (lines 518-527). -/
structure PageRun where
  best : Best
  geolocationCalls : List (ℚ × ℚ)
  summaryCalls : ℕ
  reviewQueryCalls : List (ℚ × ℚ × ℚ × String)
  reviewWriteCalls : List (String × String × (ℚ × ℚ) × ℤ × String)
  mapsLink : Option (ℚ × ℚ)
  noLandmarksPath : Bool
deriving DecidableEq

/-- The constant `PREVIOUS_CITY_COUNTRY` (gui.py line 314). -/
def previousCityCountry : String × String := ("Kövsər Dönər", "28 May")

/-- The page flow of `Landmarker.main` after an upload, as a function of the
geocoder, the validated review submission (if any) and the candidate list.
When the candidate list is empty, the whole `if landmarks:` block is skipped
and the "no landmarks detected" message is rendered instead. -/
def mainFlow (geocode : ℚ → ℚ → String × String)
    (submitted : Option (String × ℤ × String)) (landmarks : List Candidate) :
    PageRun :=
  match landmarks.getLast? with
  | none =>
      { best := trackBest landmarks, geolocationCalls := [], summaryCalls := 0,
        reviewQueryCalls := [], reviewWriteCalls := [], mapsLink := none,
        noLandmarksPath := true }
  | some lastC =>
      { best := trackBest landmarks,
        geolocationCalls := [(lastC.lat, lastC.lon)],
        summaryCalls :=
          if (geocode lastC.lat lastC.lon).1 ≠ "" ∧
             (geocode lastC.lat lastC.lon).2 ≠ "" ∧
             geocode lastC.lat lastC.lon ≠ previousCityCountry then 1 else 0,
        reviewQueryCalls :=
          [((trackBest landmarks).lon, (trackBest landmarks).lat, 1/10,
            (trackBest landmarks).name)],
        reviewWriteCalls :=
          match submitted with
          | some (username, score, review) =>
              [(review, (trackBest landmarks).name,
                ((trackBest landmarks).lon, (trackBest landmarks).lat), score,
                username)]
          | none => [],
        mapsLink := some ((trackBest landmarks).lat, (trackBest landmarks).lon),
        noLandmarksPath := false }

/-! ## Theorems: page flow -/

/-- C8: when recognition returns zero candidates, the page renders the
"no landmarks detected" path and performs no geolocation, summary, review
read or review write call, and the most-matched tracking keeps its initial
values. -/
theorem zero_candidates_no_calls :
    ∀ (geocode : ℚ → ℚ → String × String)
      (submitted : Option (String × ℤ × String)),
      mainFlow geocode submitted [] =
        { best := { name := "", score := 0, lat := 0, lon := 0 },
          geolocationCalls := [], summaryCalls := 0, reviewQueryCalls := [],
          reviewWriteCalls := [], mapsLink := none, noLandmarksPath := true } := by
  intro geocode submitted
  rfl

lemma firstMaxCandidate_ne_none (c : Candidate) (rest : List Candidate) :
    firstMaxCandidate (c :: rest) ≠ none := by
  cases hr : firstMaxCandidate rest <;> simp [firstMaxCandidate, hr]
  split <;> simp

lemma firstMaxCandidate_eq_none_iff (l : List Candidate) :
    firstMaxCandidate l = none ↔ l = [] := by
  cases l with
  | nil => simp [firstMaxCandidate]
  | cons c rest => simp [firstMaxCandidate_ne_none]

lemma firstMaxCandidate_is_max (l : List Candidate) :
    ∀ (c : Candidate), firstMaxCandidate l = some c → ∀ e ∈ l, e.score ≤ c.score := by
  induction l with
  | nil => intro c h; simp [firstMaxCandidate] at h
  | cons a rest ih =>
      intro c h
      rw [firstMaxCandidate] at h
      cases hr : firstMaxCandidate rest with
      | none =>
          rw [hr] at h
          have hc : a = c := by simpa using h
          have hrest : rest = [] := (firstMaxCandidate_eq_none_iff rest).mp hr
          subst hrest
          intro e he
          rw [List.mem_singleton] at he
          rw [he, hc]
      | some d =>
          rw [hr] at h
          dsimp only at h
          by_cases hd : d.score > a.score
          · rw [if_pos hd] at h
            have hc : d = c := by simpa using h
            intro e he
            rcases List.mem_cons.mp he with he | he
            · rw [he, ← hc]
              exact le_of_lt hd
            · rw [← hc]
              exact ih d hr e he
          · rw [if_neg hd] at h
            have hc : a = c := by simpa using h
            intro e he
            rcases List.mem_cons.mp he with he | he
            · rw [he, ← hc]
            · rw [← hc]
              exact le_trans (ih d hr e he) (not_lt.mp hd)

lemma foldl_updateBest_no_improve (l : List Candidate) (b : Best)
    (h : ∀ e ∈ l, e.score ≤ b.score) : l.foldl updateBest b = b := by
  induction l with
  | nil => rfl
  | cons a rest ih =>
      have ha : updateBest b a = b := by
        unfold updateBest
        rw [if_neg (not_lt.mpr (h a (List.mem_cons_self a rest)))]
      rw [List.foldl_cons, ha]
      exact ih (fun e he => h e (List.mem_cons_of_mem a he))

lemma foldl_updateBest_firstMax (l : List Candidate) :
    ∀ (b : Best) (c : Candidate), firstMaxCandidate l = some c → b.score < c.score →
      l.foldl updateBest b =
        { name := c.description, score := c.score, lat := c.lat, lon := c.lon } := by
  induction l with
  | nil => intro b c h hb; simp [firstMaxCandidate] at h
  | cons a rest ih =>
      intro b c h hb
      rw [firstMaxCandidate] at h
      cases hr : firstMaxCandidate rest with
      | none =>
          rw [hr] at h
          have hc : a = c := by simpa using h
          have hrest : rest = [] := (firstMaxCandidate_eq_none_iff rest).mp hr
          subst hrest
          simp only [List.foldl_cons, List.foldl_nil]
          unfold updateBest
          rw [hc, if_pos hb]
      | some d =>
          rw [hr] at h
          dsimp only at h
          by_cases hd : d.score > a.score
          · rw [if_pos hd] at h
            have hc : d = c := by simpa using h
            rw [List.foldl_cons]
            refine ih (updateBest b a) c (by rw [hc] at hr; exact hr) ?_
            unfold updateBest
            split
            · rw [← hc]; exact hd
            · exact hb
          · rw [if_neg hd] at h
            have hc : a = c := by simpa using h
            have hb' : b.score < a.score := by rw [hc]; exact hb
            have ha : updateBest b a =
                { name := a.description, score := a.score, lat := a.lat, lon := a.lon } := by
              unfold updateBest
              rw [if_pos hb']
            rw [List.foldl_cons, ha]
            have hall : ∀ e ∈ rest, e.score ≤ a.score := fun e he =>
              le_trans (firstMaxCandidate_is_max rest d hr e he) (not_lt.mp hd)
            rw [foldl_updateBest_no_improve rest _ hall, hc]

/-- Sample geocoder used by the concrete page-flow evaluations. -/
def gBaku : ℚ → ℚ → String × String := fun _ _ => ("Baku", "Azerbaijan")

/-- Sample candidates used by the concrete page-flow evaluations. -/
def candA : Candidate :=
  { description := "Maiden Tower", score := 9/10, lat := 10, lon := 20 }

/-- Second sample candidate (lower confidence, listed last). -/
def candB : Candidate :=
  { description := "Flame Towers", score := 1/2, lat := 30, lon := 40 }

/-- Sample candidate with confidence zero. -/
def candZ : Candidate :=
  { description := "Ateshgah", score := 0, lat := 7, lon := 8 }

/-- Counterexample for C3: (a) with the single candidate `candZ` of
confidence `0`, no candidate is ever treated as most-matched — the tracking
keeps the initial sentinel, whose name differs from the candidate's; (b)
with candidates `[candA, candB]` (confidences 0.9 then 0.5), the tracked
most-matched is `candA`, but the geolocation call is seeded with `candB`'s
coordinate — the loop-trailing `lat`/`lon` of gui.py line 316 — not with the
most-matched coordinate. -/
theorem most_matched_counterexample :
    ((mainFlow gBaku none [candZ]).best = initBest ∧
      (mainFlow gBaku none [candZ]).best.name ≠ candZ.description) ∧
    ((mainFlow gBaku none [candA, candB]).geolocationCalls = [(30, 40)] ∧
      (mainFlow gBaku none [candA, candB]).best =
        { name := "Maiden Tower", score := 9/10, lat := 10, lon := 20 } ∧
      ((30 : ℚ), (40 : ℚ)) ≠ ((10 : ℚ), (20 : ℚ))) := by
  refine ⟨⟨?_, ?_⟩, ?_, ?_, ?_⟩
  · norm_num [mainFlow, trackBest, updateBest, initBest, candZ, gBaku]
  · norm_num [mainFlow, trackBest, updateBest, initBest, candZ, gBaku]
    decide
  · norm_num [mainFlow, trackBest, updateBest, initBest, candA, candB, gBaku]
  · norm_num [mainFlow, trackBest, updateBest, initBest, candA, candB, gBaku]
  · norm_num [Prod.ext_iff]

/-- C3 as amended: for every candidate sequence whose max-by-confidence
element (first-seen on ties) has strictly positive confidence, the tracked
most-matched equals that element; its coordinate seeds the review query and
the Google-Maps deep link, while the geolocation (city/country) call is
seeded with the last candidate's coordinate. -/
theorem most_matched_tracking_amended :
    ∀ (geocode : ℚ → ℚ → String × String)
      (submitted : Option (String × ℤ × String))
      (landmarks : List Candidate) (c lastC : Candidate),
      firstMaxCandidate landmarks = some c → 0 < c.score →
      landmarks.getLast? = some lastC →
      (mainFlow geocode submitted landmarks).best =
        { name := c.description, score := c.score, lat := c.lat, lon := c.lon } ∧
      (mainFlow geocode submitted landmarks).reviewQueryCalls =
        [(c.lon, c.lat, 1/10, c.description)] ∧
      (mainFlow geocode submitted landmarks).mapsLink = some (c.lat, c.lon) ∧
      (mainFlow geocode submitted landmarks).geolocationCalls =
        [(lastC.lat, lastC.lon)] := by
  intro geocode submitted landmarks c lastC hmax hpos hlast
  have htrack : trackBest landmarks =
      { name := c.description, score := c.score, lat := c.lat, lon := c.lon } :=
    foldl_updateBest_firstMax landmarks initBest c hmax hpos
  unfold mainFlow
  rw [hlast, htrack]
  exact ⟨rfl, rfl, rfl, rfl⟩

/-- Witness for C3's amended theorem at the concrete candidates
`[candA, candB]`. -/
theorem most_matched_tracking_amended_witness :
    (mainFlow gBaku none [candA, candB]).best =
      { name := candA.description, score := candA.score, lat := candA.lat,
        lon := candA.lon } ∧
    (mainFlow gBaku none [candA, candB]).reviewQueryCalls =
      [(candA.lon, candA.lat, 1/10, candA.description)] ∧
    (mainFlow gBaku none [candA, candB]).mapsLink = some (candA.lat, candA.lon) ∧
    (mainFlow gBaku none [candA, candB]).geolocationCalls =
      [(candB.lat, candB.lon)] :=
  most_matched_tracking_amended gBaku none [candA, candB] candA candB
    (by norm_num [firstMaxCandidate, candA, candB]) (by norm_num [candA]) rfl

/-! ## Geolocation retry control flow (`mapping.py`) -/

/-- Outcome of one execution of `FoliumMap.get_location_details`
(mapping.py lines 131-172) with respect to the reverse-geocode call:
the call succeeds, or the page is re-executed (`st.rerun()`), or the
terminal error 0x007 is surfaced and the render pass aborts
(`st.error` + `st.stop`). -/
inductive GeoOutcome where
  | success
  | rerunPage
  | fatalError0x007
deriving DecidableEq

/-- Control flow of one call of `get_location_details`: `try_count` is a
local variable initialised to `0` on every call; when the reverse geocode
raises, it is incremented once and compared against `2` — the terminal
branch is taken only `if try_count > 2`, else `st.rerun()` re-executes the
whole page. -/
def getLocationDetailsOutcome (reverseGeocodeRaises : Bool) : GeoOutcome :=
  let try_count := 0
  if reverseGeocodeRaises then
    let try_count := try_count + 1
    if try_count > 2 then GeoOutcome.fatalError0x007 else GeoOutcome.rerunPage
  else GeoOutcome.success

/-- The `n`-th page execution: each `st.rerun()` re-runs the whole script,
so `get_location_details` is entered afresh (with `try_count` re-initialised
to `0`); `raisesAt n` says whether the reverse geocode raises on the `n`-th
execution. -/
def pageExecutionOutcome (raisesAt : ℕ → Bool) (n : ℕ) : GeoOutcome :=
  getLocationDetailsOutcome (raisesAt n)

/-- C4 (evaluating the code at the failing input): the terminal branch with
error code 0x007 is unreachable — no execution of `get_location_details`
can produce it, because the locally re-initialised `try_count` never
exceeds `2` — and under a persistently failing reverse geocoder every one
of the unboundedly many page re-executions reruns the page again, so the
retry is not bounded by one and the terminal error is never surfaced. -/
theorem geolocation_retry_never_terminal :
    (∀ b : Bool, getLocationDetailsOutcome b ≠ GeoOutcome.fatalError0x007) ∧
    (∀ n : ℕ, pageExecutionOutcome (fun _ => true) n = GeoOutcome.rerunPage) := by
  constructor
  · intro b
    cases b <;> decide
  · intro n
    rfl

/-! ## Confidence string format/parse (`gui.py` line 224, `mapping.py` line 214) -/

/-- Python's `round` to the nearest integer, ties to even (the mode used by
`round(x, 2)` once scaled; scores are modelled as exact rationals). -/
def pyRoundTE (x : ℚ) : ℤ :=
  if x - Int.floor x < 1/2 then Int.floor x
  else if 1/2 < x - Int.floor x then Int.floor x + 1
  else if Even (Int.floor x) then Int.floor x else Int.floor x + 1

/-- Python's `round(x, 2)`: round to two decimal places. -/
def pyRound2 (x : ℚ) : ℚ := (pyRoundTE (x * 100) : ℚ) / 100

/-- The character of a decimal digit. -/
def digitChar (d : ℕ) : Char := Char.ofNat (48 + d)

/-- Decimal digits of a natural number, most significant first. -/
def natChars (n : ℕ) : List Char :=
  if n = 0 then ['0'] else (Nat.digits 10 n).reverse.map digitChar

/-- The fractional digits Python's `str` prints for the two-decimal value
`f/100` (`0 ≤ f < 100`): trailing zeros are dropped but at least one digit
is kept, so `f = 50` prints `"5"` and `f = 5` prints `"05"`. -/
def fracChars (f : ℕ) : List Char :=
  if f % 10 = 0 then [digitChar (f / 10)] else [digitChar (f / 10), digitChar (f % 10)]

/-- Python's `str` of the two-decimal float value `k/100` (`k : ℕ`): the
integer part, a dot, then the fractional digits. -/
def pyFloatStr (k : ℕ) : List Char :=
  natChars (k / 100) ++ '.' :: fracChars (k % 100)

/-- The confidence string built by `Landmarker.main` (gui.py lines 224-225):
`"Matched: " + str(round(landmark.score * 100, 2)) + "%"`.  The value
`round(s*100, 2)` equals `pyRoundTE (s*100*100) / 100`, and `pyFloatStr`
prints it. -/
def formatConfidence (s : ℚ) : List Char :=
  ("Matched: ".toList) ++ pyFloatStr (pyRoundTE (s * 100 * 100)).toNat ++ ['%']

/-- Python's `split(": ")`: greedy left-to-right split on the two-character
separator. -/
def splitColonSpace : List Char → List (List Char)
  | [] => [[]]
  | [c] => [[c]]
  | c :: d :: rest =>
      if c = ':' ∧ d = ' ' then [] :: splitColonSpace rest
      else (c :: (splitColonSpace (d :: rest)).headI) :: (splitColonSpace (d :: rest)).tail

/-- Python's `strip(c)`: remove the character from both ends. -/
def stripChar (c : Char) (l : List Char) : List Char :=
  ((l.dropWhile (fun a => a == c)).reverse.dropWhile (fun a => a == c)).reverse

/-- Numeric value of a digit character. -/
def charToDigit (c : Char) : ℕ := c.toNat - 48

/-- Numeric value of a digit string, most significant first. -/
def ofDigitChars (l : List Char) : ℕ :=
  l.foldl (fun acc c => 10 * acc + charToDigit c) 0

/-- A sound underapproximation of Python's `float()`: it accepts exactly the
unsigned decimal numerals (a nonempty digit string, optionally followed by a
dot and a nonempty digit string) and returns their exact value, which agrees
with CPython on every accepted string.  CPython's `float()` additionally
accepts signs, surrounding whitespace, exponents, digit underscores, bare
leading or trailing dots and `inf`/`nan`; those inputs never occur in the
confidence strings built by the page controller, they are not modelled
(`none` here does not mean CPython raises), and no theorem below claims the
error branch for them. -/
def pyFloat (l : List Char) : Option ℚ :=
  match l.dropWhile Char.isDigit with
  | [] => if l.isEmpty then none else some ((ofDigitChars l : ℚ))
  | c :: frac =>
      if (c == '.') && !(l.takeWhile Char.isDigit).isEmpty &&
         !frac.isEmpty && frac.all Char.isDigit then
        some ((ofDigitChars (l.takeWhile Char.isDigit) : ℚ) +
          (ofDigitChars frac : ℚ) / 10 ^ frac.length)
      else none

/-- Whether a character string is an unsigned decimal numeral (the inputs
accepted by `pyFloat`), stated as an independent scanner. -/
def isNumberChars (l : List Char) : Bool :=
  match l.dropWhile Char.isDigit with
  | [] => !l.isEmpty
  | c :: frac =>
      (c == '.') && !(l.takeWhile Char.isDigit).isEmpty &&
      !frac.isEmpty && frac.all Char.isDigit

/-- The confidence parsing in `FoliumMap.add_marker` (mapping.py line 214):
`float(confidence.split(": ")[1].strip("%")) / 100`; an `IndexError` (no
second segment) or `ValueError` (not a float) is caught and leads to the
error branch, modelled as `none`.  Because `pyFloat` underapproximates
`float()`, a `none` from the `pyFloat` stage is faithful only on the
modelled numeral grammar, and the theorems below use this definition only
in directions that are sound for the real program. -/
def parseConfidence (confidence : List Char) : Option ℚ :=
  match (splitColonSpace confidence)[1]? with
  | none => none
  | some seg =>
      match pyFloat (stripChar '%' seg) with
      | none => none
      | some v => some (v / 100)

/-- Outcome of `FoliumMap.add_marker` (mapping.py lines 203-268) with
respect to the confidence string: either the error branch (error code
0x009, `st.stop`, no marker), or a marker is added with the parsed score
and the icon/color chosen from it. -/
inductive MarkerOutcome where
  | errorStop
  | added (confidence_score : ℚ) (color : String) (icon : Icon)
deriving DecidableEq

/-- `FoliumMap.add_marker` as a function of the confidence string. -/
def addMarkerOutcome (confidence : List Char) : MarkerOutcome :=
  match parseConfidence confidence with
  | none => MarkerOutcome.errorStop
  | some confidence_score =>
      MarkerOutcome.added confidence_score (getMarkerColor confidence_score)
        (getMarkerIcon confidence_score)

/-- A string of the form `<label>: <number>%` — the shape named by the
claim: some prefix, the separator, a decimal numeral, and a trailing
percent sign. -/
def specFormConfidence (confidence : List Char) : Bool :=
  (List.range confidence.length).any fun i =>
    match confidence.drop i with
    | ':' :: ' ' :: rest =>
        match rest.getLast? with
        | some '%' => isNumberChars rest.dropLast
        | _ => false
    | _ => false

/-! ## Theorems: confidence string round-trip -/

/-- Counterexample for C10: the string `"Matched: 85.0"` is not of the form
`<label>: <number>%` (it has no trailing percent sign), yet `add_marker`
does not take its error branch — `strip("%")` is a no-op on it, the float
parse succeeds, and a marker is added with score `0.85`, color green and a
star icon. -/
theorem confidence_format_counterexample :
    specFormConfidence ("Matched: 85.0".toList) = false ∧
    addMarkerOutcome ("Matched: 85.0".toList) =
      MarkerOutcome.added (17/20) "green" Icon.star := by
  constructor
  · decide
  · have hdw : ("85.0".toList).dropWhile Char.isDigit = '.' :: ['0'] := by decide
    have htw : ("85.0".toList).takeWhile Char.isDigit = ['8', '5'] := by decide
    have hint : ofDigitChars ['8', '5'] = 85 := by decide
    have hfrac : ofDigitChars ['0'] = 0 := by decide
    have hfloat : pyFloat ("85.0".toList) = some 85 := by
      unfold pyFloat
      rw [hdw]
      dsimp only
      rw [htw, hint, hfrac, if_pos (by decide)]
      norm_num
    have hsplit : (splitColonSpace ("Matched: 85.0".toList))[1]? =
        some ("85.0".toList) := by decide
    have hstrip : stripChar '%' ("85.0".toList) = "85.0".toList := by decide
    have hparse : parseConfidence ("Matched: 85.0".toList) = some (85/100) := by
      unfold parseConfidence
      rw [hsplit]
      dsimp only
      rw [hstrip, hfloat]
    unfold addMarkerOutcome
    rw [hparse]
    dsimp only
    have hval : (85 : ℚ)/100 = 17/20 := by norm_num
    rw [hval]
    norm_num [getMarkerColor, getMarkerIcon]

lemma digitChar_spec :
    ∀ d, d < 10 → (digitChar d).isDigit = true ∧ charToDigit (digitChar d) = d ∧
      digitChar d ≠ ':' ∧ digitChar d ≠ '%' := by
  decide

lemma isDigit_ne_colon {c : Char} (h : c.isDigit = true) : c ≠ ':' := by
  intro hc
  subst hc
  simp at h

lemma isDigit_ne_percent {c : Char} (h : c.isDigit = true) : c ≠ '%' := by
  intro hc
  subst hc
  simp at h

lemma natChars_ne_nil (n : ℕ) : natChars n ≠ [] := by
  unfold natChars
  split
  · simp
  · intro h
    rw [List.map_eq_nil_iff, List.reverse_eq_nil_iff] at h
    exact Nat.digits_ne_nil_iff_ne_zero.mpr (by assumption) h

lemma natChars_digits (n : ℕ) : ∀ c ∈ natChars n, c.isDigit = true := by
  unfold natChars
  split
  · intro c hc
    rw [List.mem_singleton] at hc
    subst hc
    decide
  · intro c hc
    rw [List.mem_map] at hc
    obtain ⟨d, hd, hdc⟩ := hc
    rw [List.mem_reverse] at hd
    have hlt : d < 10 := Nat.digits_lt_base (by norm_num) hd
    rw [← hdc]
    exact (digitChar_spec d hlt).1

lemma foldr_eq_ofDigits (l : List ℕ) :
    l.foldr (fun d a => 10 * a + d) 0 = Nat.ofDigits 10 l := by
  induction l with
  | nil => rfl
  | cons d t ih =>
      rw [List.foldr_cons, ih, Nat.ofDigits_cons]
      ring

lemma ofDigitChars_natChars (n : ℕ) : ofDigitChars (natChars n) = n := by
  unfold natChars
  split
  · simp only [ofDigitChars, List.foldl_cons, List.foldl_nil]
    subst_vars
    decide
  · unfold ofDigitChars
    rw [List.foldl_map]
    have hext : (Nat.digits 10 n).reverse.foldl
        (fun acc d => 10 * acc + charToDigit (digitChar d)) 0 =
        (Nat.digits 10 n).reverse.foldl (fun acc d => 10 * acc + d) 0 := by
      refine List.foldl_ext _ _ 0 ?_
      intro a d hd
      rw [List.mem_reverse] at hd
      rw [(digitChar_spec d (Nat.digits_lt_base (by norm_num) hd)).2.1]
    rw [hext, List.foldl_reverse, foldr_eq_ofDigits, Nat.ofDigits_digits]

lemma fracChars_ne_nil (f : ℕ) : fracChars f ≠ [] := by
  unfold fracChars
  split <;> simp

lemma fracChars_digits (f : ℕ) (hf : f < 100) : ∀ c ∈ fracChars f, c.isDigit = true := by
  have h1 : f / 10 < 10 := Nat.div_lt_of_lt_mul (by omega)
  have h2 : f % 10 < 10 := Nat.mod_lt f (by norm_num)
  unfold fracChars
  split <;> intro c hc <;> rcases List.mem_cons.mp hc with hc | hc
  · rw [hc]; exact (digitChar_spec _ h1).1
  · exact absurd hc (by simp)
  · rw [hc]; exact (digitChar_spec _ h1).1
  · rw [List.mem_singleton] at hc
    rw [hc]; exact (digitChar_spec _ h2).1

lemma fracChars_value (f : ℕ) (hf : f < 100) :
    (ofDigitChars (fracChars f) : ℚ) / 10 ^ (fracChars f).length = (f : ℚ) / 100 := by
  have h1 : f / 10 < 10 := Nat.div_lt_of_lt_mul (by omega)
  have h2 : f % 10 < 10 := Nat.mod_lt f (by norm_num)
  unfold fracChars
  split
  · simp only [ofDigitChars, List.foldl_cons, List.foldl_nil, List.length_singleton]
    rw [Nat.mul_zero, Nat.zero_add, (digitChar_spec _ h1).2.1]
    have hdvd : 10 * (f / 10) = f := Nat.mul_div_cancel' (Nat.dvd_of_mod_eq_zero (by assumption))
    have hq : (f : ℚ) = 10 * ((f / 10 : ℕ) : ℚ) := by exact_mod_cast hdvd.symm
    rw [hq]
    ring
  · simp only [ofDigitChars, List.foldl_cons, List.foldl_nil, List.length_cons,
      List.length_nil]
    rw [Nat.mul_zero, Nat.zero_add, (digitChar_spec _ h1).2.1, (digitChar_spec _ h2).2.1]
    have hsum : 10 * (f / 10) + f % 10 = f := Nat.div_add_mod f 10
    have hq : (10 : ℚ) * ((f / 10 : ℕ) : ℚ) + ((f % 10 : ℕ) : ℚ) = (f : ℚ) := by
      exact_mod_cast hsum
    push_cast
    norm_num
    linarith [hq]

lemma takeWhile_append_stop (p : Char → Bool) (xs : List Char) (y : Char)
    (ys : List Char) (hx : ∀ x ∈ xs, p x = true) (hy : p y = false) :
    (xs ++ y :: ys).takeWhile p = xs := by
  induction xs with
  | nil => simp [List.takeWhile_cons, hy]
  | cons a t ih =>
      rw [List.cons_append, List.takeWhile_cons, hx a (List.mem_cons_self a t),
        ih (fun x hx2 => hx x (List.mem_cons_of_mem a hx2))]
      simp

lemma dropWhile_append_stop (p : Char → Bool) (xs : List Char) (y : Char)
    (ys : List Char) (hx : ∀ x ∈ xs, p x = true) (hy : p y = false) :
    (xs ++ y :: ys).dropWhile p = y :: ys := by
  induction xs with
  | nil => simp [List.dropWhile_cons, hy]
  | cons a t ih =>
      rw [List.cons_append, List.dropWhile_cons, hx a (List.mem_cons_self a t)]
      simp only [if_true]
      exact ih (fun x hx2 => hx x (List.mem_cons_of_mem a hx2))

lemma dropWhile_eq_self_of_all (p : Char → Bool) (l : List Char)
    (h : ∀ c ∈ l, p c = false) : l.dropWhile p = l := by
  cases l with
  | nil => rfl
  | cons a t => rw [List.dropWhile_cons, h a (List.mem_cons_self a t)]; simp

lemma pyFloat_pyFloatStr (k : ℕ) : pyFloat (pyFloatStr k) = some ((k : ℚ) / 100) := by
  have hfr : k % 100 < 100 := Nat.mod_lt k (by norm_num)
  have hdw : (pyFloatStr k).dropWhile Char.isDigit = '.' :: fracChars (k % 100) :=
    dropWhile_append_stop Char.isDigit (natChars (k / 100)) '.' (fracChars (k % 100))
      (natChars_digits (k / 100)) (by decide)
  have htw : (pyFloatStr k).takeWhile Char.isDigit = natChars (k / 100) :=
    takeWhile_append_stop Char.isDigit (natChars (k / 100)) '.' (fracChars (k % 100))
      (natChars_digits (k / 100)) (by decide)
  have hne : (natChars (k / 100)).isEmpty = false := by
    cases hn : natChars (k / 100) with
    | nil => exact absurd hn (natChars_ne_nil (k / 100))
    | cons a t => rfl
  have hfne : (fracChars (k % 100)).isEmpty = false := by
    cases hn : fracChars (k % 100) with
    | nil => exact absurd hn (fracChars_ne_nil (k % 100))
    | cons a t => rfl
  have hall : (fracChars (k % 100)).all Char.isDigit = true :=
    List.all_eq_true.mpr (fracChars_digits (k % 100) hfr)
  unfold pyFloat
  rw [hdw]
  dsimp only
  rw [htw, hne, hfne, hall]
  rw [if_pos (by decide)]
  rw [ofDigitChars_natChars, fracChars_value (k % 100) hfr]
  have hk : 100 * (k / 100) + k % 100 = k := Nat.div_add_mod k 100
  have hq : (100 : ℚ) * ((k / 100 : ℕ) : ℚ) + ((k % 100 : ℕ) : ℚ) = (k : ℚ) := by
    exact_mod_cast hk
  rw [Option.some_inj]
  field_simp
  linarith [hq]

lemma splitColonSpace_no_colon (t : List Char) (h : ∀ c ∈ t, c ≠ ':') :
    splitColonSpace t = [t] := by
  induction t with
  | nil => rfl
  | cons c t ih =>
      cases t with
      | nil => rfl
      | cons d rest =>
          rw [splitColonSpace]
          rw [if_neg (fun hcd => h c (List.mem_cons_self c _) hcd.1)]
          rw [ih (fun x hx => h x (List.mem_cons_of_mem c hx))]
          rfl

lemma splitColonSpace_label (pre t : List Char) (h : ∀ c ∈ pre, c ≠ ':') :
    splitColonSpace (pre ++ ':' :: ' ' :: t) = pre :: splitColonSpace t := by
  induction pre with
  | nil =>
      rw [List.nil_append, splitColonSpace, if_pos ⟨rfl, rfl⟩]
  | cons c pre ih =>
      cases pre with
      | nil =>
          rw [List.cons_append, List.nil_append, splitColonSpace]
          rw [if_neg (fun hcd => h c (List.mem_cons_self c _) hcd.1)]
          rw [splitColonSpace, if_pos ⟨rfl, rfl⟩]
          rfl
      | cons d pre' =>
          rw [List.cons_append, List.cons_append, splitColonSpace]
          rw [if_neg (fun hcd => h c (List.mem_cons_self c _) hcd.1)]
          rw [show d :: (pre' ++ ':' :: ' ' :: t) = (d :: pre') ++ ':' :: ' ' :: t from rfl]
          rw [ih (fun x hx => h x (List.mem_cons_of_mem c hx))]
          rfl

lemma stripChar_append_percent (l : List Char) (hne : l ≠ [])
    (h : ∀ c ∈ l, c ≠ '%') : stripChar '%' (l ++ ['%']) = l := by
  have hb : ∀ c ∈ l, (c == '%') = false := by
    intro c hc
    exact beq_eq_false_iff_ne.mpr (h c hc)
  unfold stripChar
  have hfront : (l ++ ['%']).dropWhile (fun a => a == '%') = l ++ ['%'] := by
    cases l with
    | nil => exact absurd rfl hne
    | cons a t =>
        rw [List.cons_append, List.dropWhile_cons,
          hb a (List.mem_cons_self a t)]
        simp
  rw [hfront]
  have hrev : (l ++ ['%']).reverse = '%' :: l.reverse := by
    simp
  rw [hrev, List.dropWhile_cons]
  simp only [beq_self_eq_true, if_true]
  rw [dropWhile_eq_self_of_all _ _ (fun c hc => hb c (List.mem_reverse.mp hc))]
  exact List.reverse_reverse l

lemma pyFloatStr_chars (k : ℕ) (hf : k % 100 < 100) :
    ∀ c ∈ pyFloatStr k, c.isDigit = true ∨ c = '.' := by
  intro c hc
  unfold pyFloatStr at hc
  rcases List.mem_append.mp hc with hc | hc
  · exact Or.inl (natChars_digits (k / 100) c hc)
  · rcases List.mem_cons.mp hc with hc | hc
    · exact Or.inr hc
    · exact Or.inl (fracChars_digits (k % 100) hf c hc)

lemma pyFloatStr_ne_nil (k : ℕ) : pyFloatStr k ≠ [] := by
  unfold pyFloatStr
  intro h
  rw [List.append_eq_nil] at h
  exact natChars_ne_nil (k / 100) h.1

lemma pyFloatStr_no_colon (k : ℕ) : ∀ c ∈ pyFloatStr k, c ≠ ':' := by
  intro c hc
  rcases pyFloatStr_chars k (Nat.mod_lt k (by norm_num)) c hc with h | h
  · exact isDigit_ne_colon h
  · rw [h]; decide

lemma pyFloatStr_no_percent (k : ℕ) : ∀ c ∈ pyFloatStr k, c ≠ '%' := by
  intro c hc
  rcases pyFloatStr_chars k (Nat.mod_lt k (by norm_num)) c hc with h | h
  · exact isDigit_ne_percent h
  · rw [h]; decide

lemma pyRoundTE_nonneg (x : ℚ) (hx : 0 ≤ x) : 0 ≤ pyRoundTE x := by
  have hf : 0 ≤ Int.floor x := Int.floor_nonneg.mpr hx
  unfold pyRoundTE
  split
  · exact hf
  · split
    · omega
    · split
      · exact hf
      · omega

lemma pyFloat_none_iff (l : List Char) :
    pyFloat l = none ↔ isNumberChars l = false := by
  unfold pyFloat isNumberChars
  cases h : l.dropWhile Char.isDigit with
  | nil =>
      cases hl : l.isEmpty <;> simp [hl]
  | cons c frac =>
      dsimp only
      cases hg : ((c == '.') && !(l.takeWhile Char.isDigit).isEmpty &&
          !frac.isEmpty && frac.all Char.isDigit) <;> simp [hg]

/-- The helper equalities for one formatted confidence string: splitting,
stripping and parsing it recovers the printed two-decimal value. -/
lemma parseConfidence_formatConfidence (s : ℚ) :
    parseConfidence (formatConfidence s) =
      some ((((pyRoundTE (s * 100 * 100)).toNat : ℚ) / 100) / 100) := by
  have hm : "Matched: ".toList = "Matched".toList ++ [':', ' '] := by decide
  have hform : formatConfidence s =
      "Matched".toList ++ ':' :: ' ' ::
        (pyFloatStr (pyRoundTE (s * 100 * 100)).toNat ++ ['%']) := by
    unfold formatConfidence
    rw [hm, List.append_assoc]
    rfl
  have hsplit : splitColonSpace (formatConfidence s) =
      "Matched".toList ::
        splitColonSpace (pyFloatStr (pyRoundTE (s * 100 * 100)).toNat ++ ['%']) := by
    rw [hform]
    exact splitColonSpace_label _ _ (by decide)
  have hnocolon : ∀ c ∈ pyFloatStr (pyRoundTE (s * 100 * 100)).toNat ++ ['%'], c ≠ ':' := by
    intro c hc
    rcases List.mem_append.mp hc with hc | hc
    · exact pyFloatStr_no_colon _ c hc
    · rw [List.mem_singleton] at hc
      rw [hc]; decide
  have hsplit2 : splitColonSpace (pyFloatStr (pyRoundTE (s * 100 * 100)).toNat ++ ['%']) =
      [pyFloatStr (pyRoundTE (s * 100 * 100)).toNat ++ ['%']] :=
    splitColonSpace_no_colon _ hnocolon
  have hstrip : stripChar '%' (pyFloatStr (pyRoundTE (s * 100 * 100)).toNat ++ ['%']) =
      pyFloatStr (pyRoundTE (s * 100 * 100)).toNat :=
    stripChar_append_percent _ (pyFloatStr_ne_nil _) (pyFloatStr_no_percent _)
  unfold parseConfidence
  rw [hsplit, hsplit2]
  simp only [List.getElem?_cons_succ, List.getElem?_cons_zero]
  rw [hstrip, pyFloat_pyFloatStr]

/-- C10 as amended: the confidence string built by the page controller is
parsed back inside `add_marker` to `round(s*100, 2)/100`, and the marker is
added with the glyph and color of that value — the candidate's score up to
two-decimal-percent rounding; `add_marker` takes its error branch when the
string's `split(": ")` yields no second segment (the `IndexError` path), and
it adds a marker — no error branch — whenever the second segment, after
stripping `'%'` characters from both ends, is an unsigned decimal numeral: a
trailing `'%'` is not required.  (Only these two directions are stated:
`float()` also accepts strings beyond the unsigned decimal numerals, such as
signed or exponent forms, so a malformed-looking segment does not in general
imply the error branch.) -/
theorem confidence_parse_amended :
    (∀ s : ℚ, 0 ≤ s → s ≤ 1 →
       parseConfidence (formatConfidence s) = some (pyRound2 (s * 100) / 100) ∧
       addMarkerOutcome (formatConfidence s) =
         MarkerOutcome.added (pyRound2 (s * 100) / 100)
           (getMarkerColor (pyRound2 (s * 100) / 100))
           (getMarkerIcon (pyRound2 (s * 100) / 100))) ∧
    (∀ conf : List Char,
       (splitColonSpace conf)[1]? = none →
       addMarkerOutcome conf = MarkerOutcome.errorStop) ∧
    (∀ (conf seg : List Char),
       (splitColonSpace conf)[1]? = some seg →
       isNumberChars (stripChar '%' seg) = true →
       addMarkerOutcome conf ≠ MarkerOutcome.errorStop) := by
  refine ⟨?_, ?_, ?_⟩
  · intro s hs0 hs1
    have hk : ((pyRoundTE (s * 100 * 100)).toNat : ℚ) = ((pyRoundTE (s * 100 * 100) : ℤ) : ℚ) := by
      have hnn : (0 : ℤ) ≤ pyRoundTE (s * 100 * 100) := pyRoundTE_nonneg _ (by positivity)
      exact_mod_cast Int.toNat_of_nonneg hnn
    have hval : (((pyRoundTE (s * 100 * 100)).toNat : ℚ) / 100) / 100 =
        pyRound2 (s * 100) / 100 := by
      unfold pyRound2
      rw [hk]
    have hparse := parseConfidence_formatConfidence s
    rw [hval] at hparse
    refine ⟨hparse, ?_⟩
    unfold addMarkerOutcome
    rw [hparse]
  · intro conf h1
    unfold addMarkerOutcome parseConfidence
    rw [h1]
  · intro conf seg h1 h2 hcontra
    unfold addMarkerOutcome parseConfidence at hcontra
    rw [h1] at hcontra
    cases h3 : pyFloat (stripChar '%' seg) with
    | none =>
        have hfalse := (pyFloat_none_iff _).mp h3
        rw [h2] at hfalse
        exact Bool.noConfusion hfalse
    | some v =>
        simp only [h3] at hcontra
        exact MarkerOutcome.noConfusion hcontra

/-- Witness for C10's amended theorem at the concrete score `0.85`. -/
theorem confidence_parse_amended_witness :
    0 ≤ (17/20 : ℚ) ∧ (17/20 : ℚ) ≤ 1 ∧
    parseConfidence (formatConfidence (17/20)) =
      some (pyRound2 ((17/20) * 100) / 100) :=
  ⟨by norm_num, by norm_num,
   (confidence_parse_amended.1 (17/20) (by norm_num) (by norm_num)).1⟩

end Landmarker
